import Mathlib

/-!
Verification of the openbrush-contracts code generator and the PSP22 capped
extension, by a shallow embedding of the relevant source functions in Lean 4.

The development covers:
* the PSP22 `capped` extension (`src/contracts/src/token/psp22/extensions/capped.rs`);
* the accessor generator (`src/lang/codegen/src/accessors.rs`);
* the modifier-chain expansion and the storage-key registrar, whose
  implementations are not under `src/` and are therefore modelled from the
  spec and the documented expansion in `src/utils/brush/proc_macros/lib.rs`.
-/

namespace Capped

/-- `Balance` is ink's `u128`; values are modelled as `Nat`, with an explicit
`% 2^128` where the source performs machine addition. -/
abbrev Balance := Nat

/-- The subset of `PSP22Error` used by the capped extension
(`traits::psp22::PSP22Error`). -/
inductive PSP22Error where
  | Custom (msg : String)
  | InsufficientBalance
  | InsufficientAllowance
deriving DecidableEq, Repr

/-- `capped::Data` (`capped.rs` lines 42–47): holds a single `#[lazy]` cell
`cap : Balance`.  A lazy cell is unset until first written and default-valued
(`0`) on first read; it is modelled as an `Option Balance`, `none` meaning
"never written". -/
structure Data where
  cap : Option Balance
deriving DecidableEq, Repr

/-- The contract state visible to the capped extension: its own storage
fragment plus the PSP22 total supply that `self.total_supply()` reads
(the psp22 module itself is not under `src/`; `total_supply` is modelled as a
plain storage read, which is what the claims about this file need). -/
structure Contract where
  capped : Data
  supply : Balance
deriving DecidableEq, Repr

/-- `PSP22::total_supply` as used by `_is_cap_exceeded`: reads the stored
total supply. -/
def total_supply (c : Contract) : Balance := c.supply

/-- `InternalImpl::_init_cap` (`capped.rs` lines 65–71): rejects a zero cap
with `Custom("Cap must be above 0")`, otherwise writes the lazy `cap` cell and
returns `Ok(())`.  State passing makes the `&mut self` explicit. -/
def _init_cap (c : Contract) (cap : Balance) : Contract × Except PSP22Error Unit :=
  if cap == 0 then
    (c, Except.error (PSP22Error.Custom "Cap must be above 0"))
  else
    ({ c with capped := { cap := some cap } }, Except.ok ())

/-- `InternalImpl::_cap` (`capped.rs` lines 80–82): `self.data().cap.get_or_default()`,
i.e. the stored cap, or the `Balance` default `0` when the lazy cell was never
written. -/
def _cap (c : Contract) : Balance := c.capped.cap.getD 0

/-- `InternalImpl::_is_cap_exceeded` (`capped.rs` lines 73–78):
`if self.total_supply() + amount > Internal::_cap(self) { return true } false`.
The `u128` addition is modelled with an explicit `% 2^128`. -/
def _is_cap_exceeded (c : Contract) (amount : Balance) : Bool :=
  if (total_supply c + amount) % 2 ^ 128 > _cap c then true else false

end Capped

namespace Modifiers

/-- Modelled from the spec: the signature of the body thunk passed down a
modifier chain (module `modifiers.rs` of `brush_proc_macros` is not under
`src/`; the shape follows the documented expansion in
`src/utils/brush/proc_macros/lib.rs` lines 266–279).  The `&mut` instance is
made explicit by state passing: a body takes the instance and returns the
updated instance with the return value. -/
def BodyFn (σ ρ : Type) : Type := σ → σ × ρ

/-- Modelled from the spec: a modifier function `fn m(instance, body, ...)` —
it receives the instance and the body thunk and produces the updated instance
and the return value. -/
def ModifierFn (σ ρ : Type) : Type := σ → BodyFn σ ρ → σ × ρ

/-- Modelled from the spec: the nesting produced by `#[brush::modifiers(m1, ..., mn)]`
per the documented expansion (`lib.rs` lines 266–279): the compiled method is
`m1(self, body2)` where `body2` calls `m2`, ..., innermost being the original
body.  The head of the list is the outermost wrapper. -/
def expand_modifiers {σ ρ : Type} (mods : List (ModifierFn σ ρ)) (body : BodyFn σ ρ) :
    BodyFn σ ρ :=
  match mods with
  | [] => body
  | m :: rest => fun inst => m inst (expand_modifiers rest body)

/-- An observable side effect is modelled as a numbered event appended to the
instance state, which is the event log. -/
abbrev Event := Nat

/-- A modifier that invokes its body thunk exactly once: it appends its
pre-body events, invokes the thunk, then appends its post-body events. -/
def wrapOnce {ρ : Type} (pre post : List Event) : ModifierFn (List Event) ρ :=
  fun inst k =>
    let r := k (inst ++ pre)
    (r.1 ++ post, r.2)

/-- The original method body: appends its own events and returns `ret`. -/
def appendBody {ρ : Type} (ev : List Event) (ret : ρ) : BodyFn (List Event) ρ :=
  fun inst => (inst ++ ev, ret)

end Modifiers

namespace Modifiers

/-- Modelled from the spec: the mutable-variable store of the expanded method.
Each named binding (the caller's argument, each `__brush_cloned_i`, each
modifier's by-value parameter) is a cell, addressed by index. -/
abbrev Store : Type := List Nat

/-- Read a cell. -/
def Store.read (st : Store) (i : Nat) : Nat := List.getD st i 0

/-- Overwrite a cell. -/
def Store.write (st : Store) (i : Nat) (v : Nat) : Store := List.set st i v

/-- Allocate a fresh cell holding `v`, returning the new store and the fresh
cell's address. -/
def Store.alloc (st : Store) (v : Nat) : Store × Nat := (st ++ [v], st.length)

/-- Modelled from the spec: a modifier taking one extra by-value argument,
characterized by the mutation it applies to its own copy of that argument. -/
structure ArgModifier where
  mutate : Nat → Nat

/-- Modelled from the spec: running the expanded chain over the extra-argument
plumbing of `#[brush::modifiers]` (documented expansion, `lib.rs` lines
266–279): for each modifier in declaration order, the enclosing thunk clones
the source binding (`let __brush_cloned_i = arg.clone()`), the clone is passed
by value — a fresh cell — the modifier reads its copy, mutates it in place,
and the chain proceeds inside its thunk.  Returns the final store and the list
of argument values the modifiers observed, in declaration order. -/
def run_chain_by_value (mods : List ArgModifier) (src : Nat) (st : Store) :
    Store × List Nat :=
  match mods with
  | [] => (st, [])
  | m :: rest =>
      let cloned := Store.read st src
      let p := Store.alloc st cloned
      let observed := Store.read p.1 p.2
      let st₂ := Store.write p.1 p.2 (m.mutate observed)
      let q := run_chain_by_value rest src st₂
      (q.1, observed :: q.2)

end Modifiers

namespace Registrar

/-- Modelled from the spec: the Storage-Fragment Registrar computes a storage
key by "applying a stable one-way hash (e.g. a cryptographic digest truncated
to a fixed-width key) to the fragment's declared name" (the registrar's
implementation is not under `src/`).  Modelled as a stable fold over the
name's characters truncated to a fixed-width 32-bit key at every step; any
such fixed-width key function shares the properties at issue: it is a pure
function of the name, and distinct names can collide. -/
def storage_key (name : String) : Nat :=
  name.data.foldl (fun h c => (h * 31 + c.toNat) % 2 ^ 32) 5381

/-- A corpus of distinct fragment names, standing in for the spec's
property-test sample. -/
def fragment_corpus : List String :=
  ["psp22", "psp34", "ownable", "access_control", "pausable",
   "reentrancy_guard", "capped", "metadata", "Data", "CounterData",
   "timelock_controller", "diamond", "proxy", "payment_splitter"]

end Registrar

namespace Accessors

/-- A `syn::Attribute`, reduced to the path identifier the source inspects
via `a.path.is_ident(..)`. -/
structure Attr where
  path : String
deriving DecidableEq, Repr

/-- A `syn::Field`: optional identifier (`None` for tuple-struct fields),
declared type, and attributes. -/
structure Field where
  ident : Option String
  ty : String
  attrs : List Attr
deriving DecidableEq, Repr

/-- `syn::Fields`: named fields, unnamed (tuple) fields, or a unit struct. -/
inductive Fields where
  | named (fs : List Field)
  | unnamed (fs : List Field)
  | unit
deriving DecidableEq, Repr

/-- The field list underlying a `syn::Fields` (what `.fields.iter()` and
`.fields.into_iter()` traverse). -/
def Fields.list : Fields → List Field
  | Fields.named fs => fs
  | Fields.unnamed fs => fs
  | Fields.unit => []

/-- `syn::Data`: the shape of the input declaration. -/
inductive Data where
  | dataStruct (fields : Fields)
  | dataEnum
  | dataUnion
deriving DecidableEq, Repr

/-- The input declaration (`s.ast()` of the `synstructure::Structure`):
outer attributes, visibility, name, generics (kept opaque), and shape. -/
structure DeriveInput where
  attrs : List Attr
  vis : String
  ident : String
  generics : String
  data : Data
deriving DecidableEq, Repr

/-- The struct item re-emitted by `generate_struct`. -/
structure StructItem where
  attrs : List Attr
  vis : String
  ident : String
  generics : String
  fields : Fields
deriving DecidableEq, Repr

/-- The body of an emitted accessor: `self.data().field` or
`self.data().field = value`. -/
inductive MethodBody where
  | read (field : String)
  | write (field : String)
deriving DecidableEq, Repr

/-- An emitted trait method: name, `&mut self` or `&self`, value-argument
type, return type, the `#[ink(message)]` marker, and the body. -/
structure Method where
  name : String
  mutSelf : Bool
  argTy : Option String
  retTy : Option String
  isMessage : Bool
  body : MethodBody
deriving DecidableEq, Repr

/-- The expansion produced by `accessors`: the re-emitted struct item and the
generated trait (its name and its methods). -/
structure Output where
  item : StructItem
  traitIdent : String
  methods : List Method
deriving DecidableEq, Repr

/-- `consume_attrs` (`accessors.rs` lines 103–114): drops exactly the `get`
and `set` attributes of a field, keeping everything else. -/
def consume_attrs (field : Field) : Field :=
  { field with
    attrs := field.attrs.filter (fun a => !(a.path == "get") && !(a.path == "set")) }

/-- `generate_struct` (`accessors.rs` lines 70–101): re-emits the struct with
the same outer attributes, visibility, name and generics, the fields passed
through `consume_attrs`; unnamed fields are re-emitted as a tuple struct,
anything else (named or unit) with braces. -/
def generate_struct (s : DeriveInput) (struct_item : Fields) : StructItem :=
  let fields := struct_item.list.map consume_attrs
  match struct_item with
  | Fields.unnamed _ =>
      { attrs := s.attrs, vis := s.vis, ident := s.ident, generics := s.generics,
        fields := Fields.unnamed fields }
  | _ =>
      { attrs := s.attrs, vis := s.vis, ident := s.ident, generics := s.generics,
        fields := Fields.named fields }

/-- `extract_get_fields` (`accessors.rs` lines 116–128): panics on a
non-struct shape, otherwise returns the fields carrying a `get` attribute.
Rust panics are modelled as `Except.error` carrying the panic message. -/
def extract_get_fields (s : DeriveInput) : Except String (List Field) :=
  match s.data with
  | Data.dataStruct si =>
      Except.ok (si.list.filter (fun f => f.attrs.any (fun a => a.path == "get")))
  | _ => Except.error "Only structs are supported"

/-- `extract_set_fields` (`accessors.rs` lines 130–142): as above for the
`set` attribute. -/
def extract_set_fields (s : DeriveInput) : Except String (List Field) :=
  match s.data with
  | Data.dataStruct si =>
      Except.ok (si.list.filter (fun f => f.attrs.any (fun a => a.path == "set")))
  | _ => Except.error "Only structs are supported"

/-- `field.ident.clone().unwrap()`: panics when the field has no name. -/
def unwrapIdent (f : Field) : Except String String :=
  match f.ident with
  | some i => Except.ok i
  | none => Except.error "called Option::unwrap() on a None value"

/-- One getter of the `get_impls` map (`accessors.rs` lines 27–39):
`#[ink(message)] fn get_field(&self) -> FieldTy { self.data().field }`. -/
def mkGetter (f : Field) : Except String Method :=
  match unwrapIdent f with
  | Except.error e => Except.error e
  | Except.ok id =>
      Except.ok { name := "get_" ++ id, mutSelf := false, argTy := none,
                  retTy := some f.ty, isMessage := true, body := MethodBody.read id }

/-- One setter of the `set_impls` map (`accessors.rs` lines 41–55):
`#[ink(message)] fn set_field(&mut self, value: FieldTy) { self.data().field = value; }`. -/
def mkSetter (f : Field) : Except String Method :=
  match unwrapIdent f with
  | Except.error e => Except.error e
  | Except.ok id =>
      Except.ok { name := "set_" ++ id, mutSelf := true, argTy := some f.ty,
                  retTy := none, isMessage := true, body := MethodBody.write id }

/-- Collecting an accessor iterator, propagating the first panic. -/
def collect_impls (mk : Field → Except String Method) :
    List Field → Except String (List Method)
  | [] => Except.ok []
  | f :: fs =>
    match mk f, collect_impls mk fs with
    | Except.ok m, Except.ok ms => Except.ok (m :: ms)
    | Except.error e, _ => Except.error e
    | Except.ok _, Except.error e => Except.error e

/-- `accessors` (`accessors.rs` lines 15–68): reads the trait name from the
attribute tokens, panics on non-struct input, re-emits the struct via
`generate_struct`, and emits the trait holding one getter per `get`-tagged
field and one setter per `set`-tagged field. -/
def accessors (trait_ident : String) (s : DeriveInput) : Except String Output :=
  match s.data with
  | Data.dataStruct si =>
    let item := generate_struct s si
    match extract_get_fields s with
    | Except.error e => Except.error e
    | Except.ok get_fields =>
      match collect_impls mkGetter get_fields with
      | Except.error e => Except.error e
      | Except.ok get_impls =>
        match extract_set_fields s with
        | Except.error e => Except.error e
        | Except.ok set_fields =>
          match collect_impls mkSetter set_fields with
          | Except.error e => Except.error e
          | Except.ok set_impls =>
            Except.ok { item := item, traitIdent := trait_ident,
                        methods := get_impls ++ set_impls }
  | _ => Except.error "Only structs are supported"

/-- The getter emitted for a named field (the value `mkGetter` returns when
the field has a name). -/
def getter_of (f : Field) : Method :=
  { name := "get_" ++ f.ident.getD "", mutSelf := false, argTy := none,
    retTy := some f.ty, isMessage := true, body := MethodBody.read (f.ident.getD "") }

/-- The setter emitted for a named field. -/
def setter_of (f : Field) : Method :=
  { name := "set_" ++ f.ident.getD "", mutSelf := true, argTy := some f.ty,
    retTy := none, isMessage := true, body := MethodBody.write (f.ident.getD "") }

/-- Whether a field carries the `get` attribute. -/
def hasGet (f : Field) : Bool := f.attrs.any (fun a => a.path == "get")

/-- Whether a field carries the `set` attribute. -/
def hasSet (f : Field) : Bool := f.attrs.any (fun a => a.path == "set")

/-- Semantics of an emitted setter on a record state mapping field names to
values: `self.data().field = value`. -/
def runSetter {V : Type} (m : Method) (st : String → V) (v : V) : String → V :=
  match m.body with
  | MethodBody.write fld => fun g => if g = fld then v else st g
  | _ => st

/-- Semantics of an emitted getter on a record state: returns a copy of
`self.data().field`; `none` if the method is not a getter. -/
def runGetter {V : Type} (m : Method) (st : String → V) : Option V :=
  match m.body with
  | MethodBody.read fld => some (st fld)
  | _ => none

end Accessors

namespace Modifiers

theorem read_alloc_same (st : Store) (v : Nat) {i : Nat} (h : i < st.length) :
    Store.read (Store.alloc st v).1 i = Store.read st i := by
  simp only [Store.alloc, Store.read, List.getD_eq_getElem?_getD]
  rw [List.getElem?_append_left h]

theorem read_alloc_fresh (st : Store) (v : Nat) :
    Store.read (Store.alloc st v).1 (Store.alloc st v).2 = v := by
  simp only [Store.alloc, Store.read, List.getD_eq_getElem?_getD]
  rw [List.getElem?_concat_length]
  rfl

theorem read_write_ne (st : Store) {i j : Nat} (v : Nat) (h : i ≠ j) :
    Store.read (Store.write st i v) j = Store.read st j := by
  simp only [Store.write, Store.read, List.getD_eq_getElem?_getD]
  rw [List.getElem?_set_ne h]

theorem length_write (st : Store) (i v : Nat) :
    (Store.write st i v).length = st.length := by
  simp [Store.write]

end Modifiers

namespace Registrar

theorem foldl_key_lt (l : List Char) :
    ∀ h : Nat, h < 2 ^ 32 →
      List.foldl (fun h c => (h * 31 + c.toNat) % 2 ^ 32) h l < 2 ^ 32 := by
  induction l with
  | nil => intro h hh; exact hh
  | cons c cs ih =>
    intro h hh
    exact ih _ (Nat.mod_lt _ (by norm_num))

end Registrar

namespace Accessors

theorem beq_read_read (a b : String) :
    (MethodBody.read a == MethodBody.read b) = (a == b) := by
  rw [Bool.eq_iff_iff]
  simp

theorem beq_write_write (a b : String) :
    (MethodBody.write a == MethodBody.write b) = (a == b) := by
  rw [Bool.eq_iff_iff]
  simp

theorem beq_write_read (a b : String) :
    (MethodBody.write a == MethodBody.read b) = false := by
  rw [Bool.eq_false_iff]
  intro h
  exact absurd (eq_of_beq h) (by simp)

theorem beq_read_write (a b : String) :
    (MethodBody.read a == MethodBody.write b) = false := by
  rw [Bool.eq_false_iff]
  intro h
  exact absurd (eq_of_beq h) (by simp)

theorem collect_getters_named (l : List Field) (h : ∀ f ∈ l, f.ident.isSome) :
    collect_impls mkGetter l = Except.ok (l.map getter_of) := by
  induction l with
  | nil => rfl
  | cons f fs ih =>
    obtain ⟨i, hi⟩ := Option.isSome_iff_exists.mp (h f (List.mem_cons_self f fs))
    have hfs := ih (fun g hg => h g (List.mem_cons_of_mem f hg))
    simp only [collect_impls, mkGetter, unwrapIdent, hi, hfs, List.map_cons]
    simp [getter_of, hi]

theorem collect_setters_named (l : List Field) (h : ∀ f ∈ l, f.ident.isSome) :
    collect_impls mkSetter l = Except.ok (l.map setter_of) := by
  induction l with
  | nil => rfl
  | cons f fs ih =>
    obtain ⟨i, hi⟩ := Option.isSome_iff_exists.mp (h f (List.mem_cons_self f fs))
    have hfs := ih (fun g hg => h g (List.mem_cons_of_mem f hg))
    simp only [collect_impls, mkSetter, unwrapIdent, hi, hfs, List.map_cons]
    simp [setter_of, hi]

theorem accessors_named_ok (t : String) (s : DeriveInput) (si : Fields)
    (hdata : s.data = Data.dataStruct si)
    (hnamed : ∀ f ∈ si.list, f.ident.isSome) :
    accessors t s = Except.ok
      { item := generate_struct s si, traitIdent := t,
        methods := (si.list.filter hasGet).map getter_of
                    ++ (si.list.filter hasSet).map setter_of } := by
  obtain ⟨sa, sv, sid, sg, sd⟩ := s
  simp only at hdata
  subst hdata
  have hget := collect_getters_named
    (si.list.filter (fun f => f.attrs.any (fun a => a.path == "get")))
    (fun g hg => hnamed g (List.mem_of_mem_filter hg))
  have hset := collect_setters_named
    (si.list.filter (fun f => f.attrs.any (fun a => a.path == "set")))
    (fun g hg => hnamed g (List.mem_of_mem_filter hg))
  simp only [accessors, extract_get_fields, extract_set_fields]
  rw [hget, hset]
  rfl

theorem filter_by_ident (l : List Field) (f : Field) (nm : String) (p : Field → Bool)
    (hnamed : ∀ g ∈ l, g.ident.isSome)
    (hnodup : (l.map Field.ident).Nodup)
    (hf : f ∈ l) (hid : f.ident = some nm) :
    l.filter (fun g => (g.ident.getD "" == nm) && p g)
      = if p f then [f] else [] := by
  induction l with
  | nil => cases hf
  | cons g gs ih =>
    have hnd := List.nodup_cons.mp hnodup
    rcases List.mem_cons.mp hf with hfg | hfgs
    · subst hfg
      have htail : gs.filter (fun g' => (g'.ident.getD "" == nm) && p g') = [] := by
        rw [List.filter_eq_nil_iff]
        intro g' hg'
        obtain ⟨i, hi⟩ :=
          Option.isSome_iff_exists.mp (hnamed g' (List.mem_cons_of_mem _ hg'))
        have hne : i ≠ nm := by
          intro hEq
          apply hnd.1
          have : g'.ident = f.ident := by rw [hi, hid, hEq]
          exact this ▸ List.mem_map_of_mem Field.ident hg'
        simp [hi, hne]
      rw [List.filter_cons, htail]
      by_cases hp : p f
      · simp [hid, hp]
      · simp [hid, hp]
    · obtain ⟨j, hj⟩ :=
        Option.isSome_iff_exists.mp (hnamed g (List.mem_cons_self g gs))
      have hjne : j ≠ nm := by
        intro hEq
        apply hnd.1
        have : g.ident = f.ident := by rw [hj, hid, hEq]
        exact this ▸ List.mem_map_of_mem Field.ident hfgs
      have hhead : ((g.ident.getD "" == nm) && p g) = false := by
        simp [hj, hjne]
      rw [List.filter_cons, hhead]
      exact ih (fun g' hg' => hnamed g' (List.mem_cons_of_mem _ hg')) hnd.2 hfgs

end Accessors

namespace Accessors

theorem getters_filter_read (l : List Field) (f : Field) (nm : String)
    (hnamed : ∀ g ∈ l, g.ident.isSome)
    (hnodup : (l.map Field.ident).Nodup)
    (hf : f ∈ l) (hid : f.ident = some nm) :
    ((l.filter hasGet).map getter_of).filter (fun m => m.body == MethodBody.read nm)
      = if hasGet f then [getter_of f] else [] := by
  rw [List.filter_map, List.filter_filter]
  have hcong : ∀ a ∈ l,
      (((fun m => m.body == MethodBody.read nm) ∘ getter_of) a && hasGet a)
        = ((a.ident.getD "" == nm) && hasGet a) := by
    intro a _
    simp only [Function.comp, getter_of, beq_read_read]
  rw [List.filter_congr hcong, filter_by_ident l f nm hasGet hnamed hnodup hf hid]
  by_cases hp : hasGet f
  · simp [hp]
  · simp [hp]

theorem setters_filter_write (l : List Field) (f : Field) (nm : String)
    (hnamed : ∀ g ∈ l, g.ident.isSome)
    (hnodup : (l.map Field.ident).Nodup)
    (hf : f ∈ l) (hid : f.ident = some nm) :
    ((l.filter hasSet).map setter_of).filter (fun m => m.body == MethodBody.write nm)
      = if hasSet f then [setter_of f] else [] := by
  rw [List.filter_map, List.filter_filter]
  have hcong : ∀ a ∈ l,
      (((fun m => m.body == MethodBody.write nm) ∘ setter_of) a && hasSet a)
        = ((a.ident.getD "" == nm) && hasSet a) := by
    intro a _
    simp only [Function.comp, setter_of, beq_write_write]
  rw [List.filter_congr hcong, filter_by_ident l f nm hasSet hnamed hnodup hf hid]
  by_cases hp : hasSet f
  · simp [hp]
  · simp [hp]

theorem setters_filter_read (l : List Field) (nm : String) :
    ((l.filter hasSet).map setter_of).filter (fun m => m.body == MethodBody.read nm)
      = [] := by
  rw [List.filter_eq_nil_iff]
  intro m hm
  obtain ⟨g, _, hg⟩ := List.mem_map.mp hm
  subst hg
  simp [setter_of, beq_write_read]

theorem getters_filter_write (l : List Field) (nm : String) :
    ((l.filter hasGet).map getter_of).filter (fun m => m.body == MethodBody.write nm)
      = [] := by
  rw [List.filter_eq_nil_iff]
  intro m hm
  obtain ⟨g, _, hg⟩ := List.mem_map.mp hm
  subst hg
  simp [getter_of, beq_read_write]

end Accessors

/-- Claim C8: `_init_cap cap` errors exactly when `cap = 0`, the error being
`Custom "Cap must be above 0"`; on the error path the whole contract state is
left unchanged, and on success the stored cap equals the argument, the rest of
the state is untouched, and the result is `Ok`. -/
theorem capped_init_cap_spec (c : Capped.Contract) (cap : Capped.Balance) :
    ((Capped._init_cap c cap).2 = Except.error (Capped.PSP22Error.Custom "Cap must be above 0")
        ↔ cap = 0)
    ∧ (cap = 0 → (Capped._init_cap c cap).1 = c)
    ∧ (cap ≠ 0 →
        (Capped._init_cap c cap).2 = Except.ok ()
        ∧ (Capped._init_cap c cap).1.capped.cap = some cap
        ∧ (Capped._init_cap c cap).1.supply = c.supply) := by
  unfold Capped._init_cap
  by_cases h : cap = 0
  · subst h
    simp
  · simp [h]

/-- Witness for C8: at cap `5` on a fresh contract, `_init_cap` succeeds,
stores `some 5`, keeps the supply, and at cap `0` it errors leaving the state
unchanged. -/
theorem capped_init_cap_spec_witness :
    (Capped._init_cap ⟨⟨none⟩, 17⟩ 5).2 = Except.ok ()
    ∧ (Capped._init_cap ⟨⟨none⟩, 17⟩ 5).1.capped.cap = some 5
    ∧ (Capped._init_cap ⟨⟨none⟩, 17⟩ 5).1.supply = 17
    ∧ (Capped._init_cap ⟨⟨none⟩, 17⟩ 0).1 = ⟨⟨none⟩, 17⟩ := by
  refine ⟨?_, ?_, ?_, ?_⟩
  · exact ((capped_init_cap_spec ⟨⟨none⟩, 17⟩ 5).2.2 (by decide)).1
  · exact ((capped_init_cap_spec ⟨⟨none⟩, 17⟩ 5).2.2 (by decide)).2.1
  · exact ((capped_init_cap_spec ⟨⟨none⟩, 17⟩ 5).2.2 (by decide)).2.2
  · exact (capped_init_cap_spec ⟨⟨none⟩, 17⟩ 0).2.1 rfl

/-- Claim C9: on a state whose cap cell was never written, `_cap` returns `0`;
whenever `total_supply + amount` does not overflow `u128`,
`_is_cap_exceeded amount` is `true` iff `total_supply + amount > _cap`; hence
on an uninitialized state it is `true` iff `total_supply + amount > 0`. -/
theorem capped_is_cap_exceeded_spec (c : Capped.Contract) (amount : Capped.Balance) :
    (c.capped.cap = none → Capped._cap c = 0)
    ∧ (Capped.total_supply c + amount < 2 ^ 128 →
        (Capped._is_cap_exceeded c amount = true
          ↔ Capped.total_supply c + amount > Capped._cap c))
    ∧ (c.capped.cap = none → Capped.total_supply c + amount < 2 ^ 128 →
        (Capped._is_cap_exceeded c amount = true
          ↔ 0 < Capped.total_supply c + amount)) := by
  refine ⟨?_, ?_, ?_⟩
  · intro h
    simp [Capped._cap, h]
  · intro hlt
    simp only [Capped._is_cap_exceeded, gt_iff_lt]
    rw [Nat.mod_eq_of_lt hlt]
    by_cases h : Capped._cap c < Capped.total_supply c + amount <;> simp [h]
  · intro h hlt
    simp only [Capped._is_cap_exceeded, Capped._cap, h, Option.getD_none, gt_iff_lt]
    rw [Nat.mod_eq_of_lt hlt]
    by_cases h0 : 0 < Capped.total_supply c + amount <;> simp [h0]

/-- Witness for C9: on an uninitialized contract with supply `3` and amount
`4` (no overflow), `_cap` is `0` and `_is_cap_exceeded` is `true`. -/
theorem capped_is_cap_exceeded_spec_witness :
    Capped._cap ⟨⟨none⟩, 3⟩ = 0
    ∧ Capped._is_cap_exceeded ⟨⟨none⟩, 3⟩ 4 = true := by
  refine ⟨(capped_is_cap_exceeded_spec ⟨⟨none⟩, 3⟩ 4).1 rfl, ?_⟩
  exact ((capped_is_cap_exceeded_spec ⟨⟨none⟩, 3⟩ 4).2.2 rfl (by decide)).2 (by decide)

/-- Claim C1: for a modifier chain `[m1, ..., mn]` (given as pre/post event
lists, each modifier invoking its thunk exactly once) over body `B`, the
compiled nesting produces the event order
`m1.pre, m2.pre, ..., mn.pre, B, mn.post, ..., m1.post` and returns `B`'s
return value: `m1` is outermost and `B` innermost. -/
theorem modifiers_execution_order {ρ : Type}
    (ps : List (List Modifiers.Event × List Modifiers.Event))
    (bodyEv : List Modifiers.Event) (ret : ρ) (s0 : List Modifiers.Event) :
    Modifiers.expand_modifiers
        (ps.map (fun p => Modifiers.wrapOnce p.1 p.2))
        (Modifiers.appendBody bodyEv ret) s0
      = (s0 ++ (ps.map Prod.fst).flatten ++ bodyEv ++ ((ps.map Prod.snd).reverse).flatten,
         ret) := by
  induction ps generalizing s0 with
  | nil => simp [Modifiers.expand_modifiers, Modifiers.appendBody]
  | cons p ps ih =>
    simp only [List.map_cons, Modifiers.expand_modifiers, Modifiers.wrapOnce, ih,
      List.flatten, List.reverse_cons, List.flatten_append]
    simp [List.append_assoc]

/-- Claim C2 (amended only in presentation: stated pointwise over every
instance): if modifier `mi` never invokes its body thunk, then the compiled
chain's result — updated state and return value — does not depend on the
modifiers inner to `mi` nor on the body: it equals what `m1, ..., mi` alone
produce. -/
theorem modifiers_short_circuit {σ ρ : Type}
    (outer : List (Modifiers.ModifierFn σ ρ)) (mi : Modifiers.ModifierFn σ ρ)
    (h : ∀ inst k k', mi inst k = mi inst k')
    (rest₁ rest₂ : List (Modifiers.ModifierFn σ ρ))
    (b₁ b₂ : Modifiers.BodyFn σ ρ) (inst : σ) :
    Modifiers.expand_modifiers (outer ++ mi :: rest₁) b₁ inst
      = Modifiers.expand_modifiers (outer ++ mi :: rest₂) b₂ inst := by
  induction outer generalizing inst with
  | nil =>
    simpa [Modifiers.expand_modifiers] using
      h inst (Modifiers.expand_modifiers rest₁ b₁) (Modifiers.expand_modifiers rest₂ b₂)
  | cons m ms ih =>
    simp only [List.cons_append, Modifiers.expand_modifiers]
    exact congrArg (m inst) (funext fun s => ih s)

/-- Witness for C2: a chain `[logger, guard, logger2]` where `guard` ignores
its thunk produces exactly the state and result of `[logger, guard]` alone,
whatever body and inner modifiers are supplied. -/
theorem modifiers_short_circuit_witness :
    Modifiers.expand_modifiers
        [Modifiers.wrapOnce (ρ := Nat) [1] [2],
         fun inst _ => (inst ++ [99], 7),
         Modifiers.wrapOnce [3] [4]]
        (Modifiers.appendBody [5] 0) []
      = Modifiers.expand_modifiers
          [Modifiers.wrapOnce (ρ := Nat) [1] [2],
           fun inst _ => (inst ++ [99], 7)]
          (Modifiers.appendBody [6] 1) [] := by
  exact modifiers_short_circuit
    [Modifiers.wrapOnce [1] [2]]
    (fun inst _ => (inst ++ [99], 7))
    (fun _ _ _ => rfl)
    [Modifiers.wrapOnce [3] [4]] [] (Modifiers.appendBody [5] 0)
    (Modifiers.appendBody [6] 1) []

/-- Claim C3: extra modifier arguments are passed by value — for every chain
of modifiers drawing their extra argument from the same source binding, every
modifier observes exactly the source binding's original value, regardless of
the mutations sibling modifiers apply to their own copies, and after the chain
runs the caller's original binding still holds its original value. -/
theorem modifiers_args_by_value (mods : List Modifiers.ArgModifier)
    (src : Nat) (st : Modifiers.Store) (h : src < st.length) :
    (Modifiers.run_chain_by_value mods src st).2
        = List.replicate mods.length (Modifiers.Store.read st src)
    ∧ Modifiers.Store.read (Modifiers.run_chain_by_value mods src st).1 src
        = Modifiers.Store.read st src := by
  induction mods generalizing st with
  | nil => exact ⟨rfl, rfl⟩
  | cons m rest ih =>
    have hobs :
        Modifiers.Store.read (Modifiers.Store.alloc st (Modifiers.Store.read st src)).1
            (Modifiers.Store.alloc st (Modifiers.Store.read st src)).2
          = Modifiers.Store.read st src :=
      Modifiers.read_alloc_fresh st (Modifiers.Store.read st src)
    have hne : (Modifiers.Store.alloc st (Modifiers.Store.read st src)).2 ≠ src := by
      simp only [Modifiers.Store.alloc]
      omega
    have hread :
        Modifiers.Store.read
            (Modifiers.Store.write (Modifiers.Store.alloc st (Modifiers.Store.read st src)).1
              (Modifiers.Store.alloc st (Modifiers.Store.read st src)).2
              (m.mutate (Modifiers.Store.read st src)))
            src
          = Modifiers.Store.read st src := by
      rw [Modifiers.read_write_ne _ _ hne]
      exact Modifiers.read_alloc_same st _ h
    have hlen :
        src < (Modifiers.Store.write (Modifiers.Store.alloc st (Modifiers.Store.read st src)).1
              (Modifiers.Store.alloc st (Modifiers.Store.read st src)).2
              (m.mutate (Modifiers.Store.read st src))).length := by
      rw [Modifiers.length_write]
      simp only [Modifiers.Store.alloc, List.length_append, List.length_cons,
        List.length_nil]
      omega
    obtain ⟨ih1, ih2⟩ := ih _ hlen
    constructor
    · simp only [Modifiers.run_chain_by_value, hobs, List.length_cons, List.replicate]
      rw [ih1, hread]
    · simp only [Modifiers.run_chain_by_value, hobs]
      rw [ih2, hread]

/-- Witness for C3: a chain of two modifiers over source cell `0` holding `7`,
the first overwriting its copy with `999`: both modifiers still observe `7`
and the source cell still holds `7` afterwards. -/
theorem modifiers_args_by_value_witness :
    (Modifiers.run_chain_by_value [⟨fun _ => 999⟩, ⟨fun v => v + 1⟩] 0 [7]).2 = [7, 7]
    ∧ Modifiers.Store.read
        (Modifiers.run_chain_by_value [⟨fun _ => 999⟩, ⟨fun v => v + 1⟩] 0 [7]).1 0 = 7 :=
  modifiers_args_by_value [⟨fun _ => 999⟩, ⟨fun v => v + 1⟩] 0 [7] (by decide)

/-- Counterexample for C4: the storage key is a hash truncated to a fixed
width, so two distinct fragment names can receive the same key — here the
distinct names "Aa" and "BB" collide. -/
theorem storage_key_distinct_names_collide :
    "Aa" ≠ "BB" ∧ Registrar.storage_key "Aa" = Registrar.storage_key "BB" := by
  exact ⟨by decide, by decide⟩

/-- Claim C4 (amended): storage-key assignment is a pure, deterministic
function of the fragment's declared name — the same name always yields the
same fixed-width (32-bit) key — and on a corpus of distinct fragment names the
keys are pairwise distinct; universal distinctness for all name pairs cannot
hold for a fixed-width key and is not guaranteed (an undetected,
overwhelmingly unlikely collision is an accepted risk). -/
theorem storage_key_deterministic (n₁ n₂ : String) (h : n₁ = n₂) :
    Registrar.storage_key n₁ = Registrar.storage_key n₂
    ∧ Registrar.storage_key n₁ < 2 ^ 32
    ∧ List.Pairwise (fun a b => Registrar.storage_key a ≠ Registrar.storage_key b)
        Registrar.fragment_corpus := by
  refine ⟨by rw [h], ?_, ?_⟩
  · exact Registrar.foldl_key_lt _ _ (by norm_num)
  · decide

/-- Witness for C4: the fragment name "psp22" always maps to the same key,
below `2^32`, and the corpus keys are pairwise distinct. -/
theorem storage_key_deterministic_witness :
    Registrar.storage_key "psp22" = Registrar.storage_key "psp22"
    ∧ Registrar.storage_key "psp22" < 2 ^ 32
    ∧ List.Pairwise (fun a b => Registrar.storage_key a ≠ Registrar.storage_key b)
        Registrar.fragment_corpus :=
  storage_key_deterministic "psp22" "psp22" rfl

/-- Counterexample for C5: a struct-shaped input — a tuple struct — whose
single unnamed field carries the `get` tag.  Instead of emitting a getter, the
generator aborts at build time with the `unwrap` panic on the field's missing
name, so no getter at all is emitted for this readable-tagged field. -/
theorem accessors_unnamed_get_field_panics :
    Accessors.hasGet ⟨none, "u8", [⟨"get"⟩]⟩ = true
    ∧ Accessors.accessors "WrappedAccess"
        ⟨[], "pub", "Wrapped", "",
         Accessors.Data.dataStruct (Accessors.Fields.unnamed [⟨none, "u8", [⟨"get"⟩]⟩])⟩
        = Except.error "called Option::unwrap() on a None value" :=
  ⟨rfl, rfl⟩

/-- Claim C5 (amended to fields that carry a name, as the fields of a storage
fragment do; a `get`/`set` tag on an unnamed tuple-struct field instead panics
at build time): in a struct whose fields are named and distinct, every field
tagged `get` yields exactly one externally callable (`#[ink(message)]`) getter
`get_<field>` on `&self`, taking no value argument and returning the field's
declared type by copy; every field tagged `set` yields exactly one externally
callable setter `set_<field>` on `&mut self` taking one value argument of the
field's declared type; untagged fields get no accessor. -/
theorem accessors_field_accessor_generation (t : String) (s : Accessors.DeriveInput)
    (si : Accessors.Fields) (f : Accessors.Field) (nm : String)
    (hdata : s.data = Accessors.Data.dataStruct si)
    (hnamed : ∀ g ∈ si.list, g.ident.isSome)
    (hnodup : (si.list.map Accessors.Field.ident).Nodup)
    (hf : f ∈ si.list) (hid : f.ident = some nm) :
    ∃ out, Accessors.accessors t s = Except.ok out
      ∧ (Accessors.hasGet f = true →
          out.methods.filter (fun m => m.body == Accessors.MethodBody.read nm)
            = [{ name := "get_" ++ nm, mutSelf := false, argTy := none,
                 retTy := some f.ty, isMessage := true,
                 body := Accessors.MethodBody.read nm }])
      ∧ (Accessors.hasSet f = true →
          out.methods.filter (fun m => m.body == Accessors.MethodBody.write nm)
            = [{ name := "set_" ++ nm, mutSelf := true, argTy := some f.ty,
                 retTy := none, isMessage := true,
                 body := Accessors.MethodBody.write nm }])
      ∧ (Accessors.hasGet f = false →
          out.methods.filter (fun m => m.body == Accessors.MethodBody.read nm) = [])
      ∧ (Accessors.hasSet f = false →
          out.methods.filter (fun m => m.body == Accessors.MethodBody.write nm) = []) := by
  refine ⟨_, Accessors.accessors_named_ok t s si hdata hnamed, ?_, ?_, ?_, ?_⟩
  · intro hg
    show (((si.list.filter Accessors.hasGet).map Accessors.getter_of
          ++ (si.list.filter Accessors.hasSet).map Accessors.setter_of).filter
            (fun m => m.body == Accessors.MethodBody.read nm)) = _
    rw [List.filter_append,
      Accessors.getters_filter_read si.list f nm hnamed hnodup hf hid,
      Accessors.setters_filter_read, hg]
    simp [Accessors.getter_of, hid]
  · intro hs
    show (((si.list.filter Accessors.hasGet).map Accessors.getter_of
          ++ (si.list.filter Accessors.hasSet).map Accessors.setter_of).filter
            (fun m => m.body == Accessors.MethodBody.write nm)) = _
    rw [List.filter_append,
      Accessors.setters_filter_write si.list f nm hnamed hnodup hf hid,
      Accessors.getters_filter_write, hs]
    simp [Accessors.setter_of, hid]
  · intro hg
    show (((si.list.filter Accessors.hasGet).map Accessors.getter_of
          ++ (si.list.filter Accessors.hasSet).map Accessors.setter_of).filter
            (fun m => m.body == Accessors.MethodBody.read nm)) = []
    rw [List.filter_append,
      Accessors.getters_filter_read si.list f nm hnamed hnodup hf hid,
      Accessors.setters_filter_read, hg]
    simp
  · intro hs
    show (((si.list.filter Accessors.hasGet).map Accessors.getter_of
          ++ (si.list.filter Accessors.hasSet).map Accessors.setter_of).filter
            (fun m => m.body == Accessors.MethodBody.write nm)) = []
    rw [List.filter_append,
      Accessors.setters_filter_write si.list f nm hnamed hnodup hf hid,
      Accessors.getters_filter_write, hs]
    simp

/-- Witness for C5: a named struct with fields `a` (readable), `b` (writable)
and `c` (untagged): field `a` gets exactly its one getter, and as an untagged
field `c` gets no accessor at all. -/
theorem accessors_field_accessor_generation_witness :
    (∃ out, Accessors.accessors "T"
        ⟨[], "pub", "Data", "",
         Accessors.Data.dataStruct (Accessors.Fields.named
           [⟨some "a", "u8", [⟨"get"⟩]⟩, ⟨some "b", "u16", [⟨"set"⟩]⟩,
            ⟨some "c", "u32", []⟩])⟩ = Except.ok out
      ∧ (Accessors.hasGet ⟨some "a", "u8", [⟨"get"⟩]⟩ = true →
          out.methods.filter (fun m => m.body == Accessors.MethodBody.read "a")
            = [{ name := "get_" ++ "a", mutSelf := false, argTy := none,
                 retTy := some "u8", isMessage := true,
                 body := Accessors.MethodBody.read "a" }])
      ∧ (Accessors.hasSet ⟨some "a", "u8", [⟨"get"⟩]⟩ = true →
          out.methods.filter (fun m => m.body == Accessors.MethodBody.write "a")
            = [{ name := "set_" ++ "a", mutSelf := true, argTy := some "u8",
                 retTy := none, isMessage := true,
                 body := Accessors.MethodBody.write "a" }])
      ∧ (Accessors.hasGet ⟨some "a", "u8", [⟨"get"⟩]⟩ = false →
          out.methods.filter (fun m => m.body == Accessors.MethodBody.read "a") = [])
      ∧ (Accessors.hasSet ⟨some "a", "u8", [⟨"get"⟩]⟩ = false →
          out.methods.filter (fun m => m.body == Accessors.MethodBody.write "a") = [])) :=
  accessors_field_accessor_generation "T" _ _ _ "a" rfl (by decide) (by decide)
    (by decide) rfl

/-- Claim C6: for a named field tagged both `get` and `set`, the generated
setter followed by the generated getter round-trips: after `set_<field>(v)`,
`get_<field>()` returns exactly `v`, for every value type and every value. -/
theorem accessors_set_get_round_trip (t : String) (s : Accessors.DeriveInput)
    (si : Accessors.Fields) (f : Accessors.Field) (nm : String)
    (hdata : s.data = Accessors.Data.dataStruct si)
    (hnamed : ∀ g ∈ si.list, g.ident.isSome)
    (hf : f ∈ si.list) (hid : f.ident = some nm)
    (hg : Accessors.hasGet f = true) (hs : Accessors.hasSet f = true) :
    ∃ out mg ms, Accessors.accessors t s = Except.ok out
      ∧ mg ∈ out.methods ∧ ms ∈ out.methods
      ∧ mg.name = "get_" ++ nm ∧ ms.name = "set_" ++ nm
      ∧ ∀ (V : Type) (st : String → V) (v : V),
          Accessors.runGetter mg (Accessors.runSetter ms st v) = some v := by
  refine ⟨_, Accessors.getter_of f, Accessors.setter_of f,
    Accessors.accessors_named_ok t s si hdata hnamed, ?_, ?_, ?_, ?_, ?_⟩
  · exact List.mem_append_left _
      (List.mem_map_of_mem Accessors.getter_of (List.mem_filter.mpr ⟨hf, hg⟩))
  · exact List.mem_append_right _
      (List.mem_map_of_mem Accessors.setter_of (List.mem_filter.mpr ⟨hf, hs⟩))
  · simp [Accessors.getter_of, hid]
  · simp [Accessors.setter_of, hid]
  · intro V st v
    simp [Accessors.runGetter, Accessors.runSetter, Accessors.getter_of,
      Accessors.setter_of]

/-- Witness for C6: the struct with one field `value: u32` tagged both `get`
and `set` round-trips any value through its generated setter and getter. -/
theorem accessors_set_get_round_trip_witness :
    ∃ out mg ms, Accessors.accessors "DataAccess"
        ⟨[], "pub", "Data", "",
         Accessors.Data.dataStruct (Accessors.Fields.named
           [⟨some "value", "u32", [⟨"get"⟩, ⟨"set"⟩]⟩])⟩ = Except.ok out
      ∧ mg ∈ out.methods ∧ ms ∈ out.methods
      ∧ mg.name = "get_" ++ "value" ∧ ms.name = "set_" ++ "value"
      ∧ ∀ (V : Type) (st : String → V) (v : V),
          Accessors.runGetter mg (Accessors.runSetter ms st v) = some v :=
  accessors_set_get_round_trip "DataAccess" _ _
    ⟨some "value", "u32", [⟨"get"⟩, ⟨"set"⟩]⟩ "value" rfl (by decide)
    (by decide) rfl rfl rfl

/-- Counterexample for C7: the build-time failure on a non-struct shape is the
fixed message "Only structs are supported" — two differently named non-struct
constructs produce the identical diagnostic, so the diagnostic does not carry
the offending construct's name. -/
theorem accessors_nonstruct_diagnostic_fixed :
    Accessors.accessors "T" ⟨[], "pub", "FirstEnum", "", Accessors.Data.dataEnum⟩
        = Except.error "Only structs are supported"
    ∧ Accessors.accessors "T" ⟨[], "pub", "SecondUnion", "", Accessors.Data.dataUnion⟩
        = Except.error "Only structs are supported"
    ∧ "FirstEnum" ≠ "SecondUnion" :=
  ⟨rfl, rfl, by decide⟩

/-- Claim C7 (amended: the failure diagnostic is the fixed panic message
"Only structs are supported", which does not name the offending construct —
the compiler, not the generator, attaches the invocation location): for every
input declaration whose shape is not a struct, the accessor generator fails at
build time with that message and never emits accessors. -/
theorem accessors_nonstruct_fails (t : String) (s : Accessors.DeriveInput)
    (h : ∀ si, s.data ≠ Accessors.Data.dataStruct si) :
    Accessors.accessors t s = Except.error "Only structs are supported" := by
  obtain ⟨sa, sv, sid, sg, sd⟩ := s
  cases sd with
  | dataStruct si => exact absurd rfl (h si)
  | dataEnum => rfl
  | dataUnion => rfl

/-- Witness for C7: the generator fails on a concrete enum input with the
fixed message, emitting nothing. -/
theorem accessors_nonstruct_fails_witness :
    Accessors.accessors "MyTrait" ⟨[], "pub", "MyEnum", "", Accessors.Data.dataEnum⟩
      = Except.error "Only structs are supported" :=
  accessors_nonstruct_fails "MyTrait" _ (fun _ h => Accessors.Data.noConfusion h)

/-- Claim C10: the struct re-emitted by the accessor generator keeps the input
struct's name, visibility, generics and outer attributes, preserves the number,
order, names and declared types of the fields, and on each field removes
exactly the `get` and `set` attribute tags, keeping every other field
attribute in order. -/
theorem generate_struct_frame (s : Accessors.DeriveInput) (si : Accessors.Fields) :
    (Accessors.generate_struct s si).ident = s.ident
    ∧ (Accessors.generate_struct s si).vis = s.vis
    ∧ (Accessors.generate_struct s si).generics = s.generics
    ∧ (Accessors.generate_struct s si).attrs = s.attrs
    ∧ (Accessors.generate_struct s si).fields.list.map Accessors.Field.ident
        = si.list.map Accessors.Field.ident
    ∧ (Accessors.generate_struct s si).fields.list.map Accessors.Field.ty
        = si.list.map Accessors.Field.ty
    ∧ (Accessors.generate_struct s si).fields.list.map Accessors.Field.attrs
        = si.list.map (fun f =>
            f.attrs.filter (fun a => !(a.path == "get") && !(a.path == "set"))) := by
  cases si <;>
    simp [Accessors.generate_struct, Accessors.Fields.list, Accessors.consume_attrs,
      List.map_map, Function.comp]
